import Mathlib

/-!
Verification of the enmap-mongo persistence adapter (`src/index.js`).

The adapter (`EnmapProvider`) bridges an in-memory `Map`-like container to a
MongoDB collection.  We give a shallow embedding of its data model and
operations: JavaScript runtime values are modelled by `JSVal` (enough of the
dynamic type system to capture truthiness and `constructor.name` dispatch;
object values carry one level of named fields, which is all any claim about
this adapter inspects), the in-memory container by an insertion-ordered
association list with JS `Map` semantics, and each method of the class by a
pure function that returns the store operations it issues alongside the
updated object state.
-/

/-- An atomic JavaScript value, used as the field values of object values. -/
inductive JSAtom where
  | str (s : String)
  | num (n : Int)
  | bool (b : Bool)
  | nullV
  deriving DecidableEq, Repr

/-- A JavaScript runtime value, restricted to the shapes the adapter code
inspects: strings, (integer) numbers, booleans, `null`, `undefined`, and
plain objects given as ordered field lists. -/
inductive JSVal where
  | str (s : String)
  | num (n : Int)
  | bool (b : Bool)
  | nullV
  | undef
  | obj (fields : List (String × JSAtom))
  deriving DecidableEq, Repr

/-- JavaScript truthiness of a value (`if (x)`, `x || y`, `!x`). -/
def JSVal.truthy : JSVal → Bool
  | .str s => s ≠ ""
  | .num n => n ≠ 0
  | .bool b => b
  | .nullV => false
  | .undef => false
  | .obj _ => true

/-- Model of `x.constructor.name` for the values that have a constructor.  `null` and
`undefined` have none; the adapter only reads `constructor` behind a
truthiness guard, so those cases are never reached and get a dummy name. -/
def JSVal.constructorName : JSVal → String
  | .str _ => "String"
  | .num _ => "Number"
  | .bool _ => "Boolean"
  | .nullV => ""
  | .undef => ""
  | .obj _ => "Object"

/-- The in-memory container handed to `init`: a JS `Map` modelled as an
insertion-ordered association list with unique keys. -/
abbrev Container := List (JSVal × JSVal)

/-- Model of `Map.prototype.set.call(enmap, k, v)`: overwrite in place if the key is
present, otherwise append. -/
def mapSet (m : Container) (k v : JSVal) : Container :=
  if m.any (fun p => p.1 == k) then
    m.map (fun p => if p.1 == k then (k, v) else p)
  else
    m ++ [(k, v)]

/-- Model of `Map.prototype.delete.call(enmap, k)`. -/
def mapDelete (m : Container) (k : JSVal) : Container :=
  m.filter (fun p => p.1 != k)

/-- Model of `Map.prototype.get.call(enmap, k)`. -/
def mapGet (m : Container) (k : JSVal) : Option JSVal :=
  (m.find? (fun p => p.1 == k)).map (fun p => p.2)

/-- One character's fate under `name.replace(/[^a-z0-9]/gi, '_')`: ASCII
letters (either case) and digits survive, everything else becomes `_`. -/
def sanitizeChar (c : Char) : Char :=
  if ('a' ≤ c ∧ c ≤ 'z') ∨ ('A' ≤ c ∧ c ≤ 'Z') ∨ ('0' ≤ c ∧ c ≤ '9') then c
  else '_'

/-- Model of `validateName()`: `this.name.replace(/[^a-z0-9]/gi, '_').toLowerCase()`,
expressed character by character (both the regex replacement and ASCII
lowercasing are per-character maps). -/
def validateName (s : String) : String :=
  String.mk ((s.data.map sanitizeChar).map Char.toLower)

/-- Store operations the adapter issues against the backing store.  `update`
records the `{_id: queryId}` query, the full replacement document
`{_id: docId, value, expireAt?}` and the `upsert` flag; `remove` records the
queried id and the `single` flag; `closeClient` stands for
`this.client.close()`. -/
inductive StoreOp where
  | update (queryId : JSVal) (docId : JSVal) (value : JSVal)
      (expireAt : Option JSVal) (upsert : Bool)
  | remove (queryId : JSVal) (single : Bool)
  | findOne (queryId : JSVal)
  | createIndex (field : String) (expireAfterSeconds : Int)
  | drop
  | watch
  | closeClient
  deriving DecidableEq, Repr

/-- Constructor options.  JS absent fields are `none`; `documentTTL` and
`monitorChanges` are used as booleans by the source (`|| false` and
`=== true`). -/
structure Options where
  name : Option String := none
  user : Option String := none
  password : Option String := none
  dbName : Option String := none
  port : Option Int := none
  host : Option String := none
  url : Option String := none
  sc : Option Nat := none
  documentTTL : Bool := false
  monitorChanges : Bool := false
  deriving DecidableEq, Repr

/-- Truthiness of an optional string option (absent and `""` are falsy). -/
def optStrTruthy : Option String → Bool
  | some s => s ≠ ""
  | none => false

/-- Truthiness of an optional numeric option (absent and `0` are falsy). -/
def optIntTruthy : Option Int → Bool
  | some n => n ≠ 0
  | none => false

/-- JS `options.x || d` for a string-valued option. -/
def jsOrStr (v : Option String) (d : String) : String :=
  match v with
  | some s => if s ≠ "" then s else d
  | none => d

/-- JS `options.x || d` for a number-valued option. -/
def jsOrInt (v : Option Int) (d : Int) : Int :=
  match v with
  | some n => if n ≠ 0 then n else d
  | none => d

/-- The MongoDB client handle held in `this.client` after `init`: either
the supplied pre-connected client `this.sc`, or one freshly connected to
`this.url`. -/
inductive ClientHandle where
  | supplied (sc : Nat)
  | connected (url : String)
  deriving DecidableEq, Repr

/-- The fields of an `EnmapProvider` instance.  The first nine are set by
the constructor and constitute the configuration; `fetchAll` is never
assigned by the constructor (it is an external flag read by `init`, falsy
until someone sets it); `enmap`, `client` and `db` are assigned by
`init`. -/
structure ProviderState where
  name : String
  auth : String
  dbName : String
  port : Int
  host : String
  sc : Option Nat
  documentTTL : Bool
  monitorChanges : Bool
  url : String
  fetchAll : Bool
  enmap : Container
  client : Option ClientHandle
  db : Option (String × String)
  deriving DecidableEq, Repr

/-- A document of the collection as returned by the store:
`{_id, value, expireAt?}`. -/
structure StoredRow where
  _id : JSVal
  value : JSVal
  expireAt : Option JSVal := none
  deriving DecidableEq, Repr

/-- A change-feed event.  `operationType` is the Mongo event type;
`fullDocument` is the looked-up document (insert/replace/update events);
`documentKeyId` is `change.documentKey._id`; `updatedFields` is the
field-level diff `change.updateDescription.updatedFields` carried by
`update` events (the handler in the source never reads it). -/
structure ChangeEvent where
  operationType : String
  fullDocument : StoredRow
  documentKeyId : JSVal
  updatedFields : List (String × JSAtom) := []
  deriving DecidableEq, Repr

namespace EnmapProvider

/-- The constructor `new EnmapProvider(options)`.  Throws `Must provide options.name` when
`options.name` is falsy; otherwise sanitizes the name and derives
`auth`/`dbName`/`port`/`host`/`sc`/`documentTTL`/`monitorChanges`/`url`, in
source order.  The readiness promise (`this.defer`/`this.ready`) carries no
data and is not modelled. -/
def construct (options : Options) : Except String ProviderState :=
  if ¬ optStrTruthy options.name then .error "Must provide options.name"
  else
    let name := validateName (options.name.getD "")
    let auth :=
      if optStrTruthy options.user && optStrTruthy options.password then
        options.user.getD "" ++ ":" ++ options.password.getD "" ++ "@"
      else ""
    let dbName := jsOrStr options.dbName "enmap"
    let port := jsOrInt options.port 27017
    let host := jsOrStr options.host "localhost"
    let url := jsOrStr options.url
      ("mongodb://" ++ auth ++ host ++ ":" ++ toString port ++ "/" ++ dbName)
    .ok { name := name, auth := auth, dbName := dbName, port := port,
          host := host, sc := options.sc, documentTTL := options.documentTTL,
          monitorChanges := options.monitorChanges, url := url,
          fetchAll := false, enmap := [], client := none, db := none }

/-- The change-feed handler registered by `init` when `monitorChanges` is
enabled: `insert` events call `Map.prototype.set.call(enmap, _id, value)`,
`delete` events call `Map.prototype.delete.call(enmap, documentKey._id)`,
and every other event type falls through both branches unhandled.  The
second component records the outbound store operations the handler issues:
none, on every path. -/
def handleChange (enmap : Container) (change : ChangeEvent) :
    Container × List StoreOp :=
  if change.operationType = "insert" then
    (mapSet enmap change.fullDocument._id change.fullDocument.value, [])
  else if change.operationType = "delete" then
    (mapDelete enmap change.documentKeyId, [])
  else
    (enmap, [])

/-- Model of `fetchEverything()`: fold `Map.prototype.set.call(this.enmap, row._id,
row.value)` over the rows returned by the full scan `this.db.find({})`. -/
def fetchEverything (rows : List StoredRow) (enmap : Container) : Container :=
  rows.foldl (fun m row => mapSet m row._id row.value) enmap

/-- Model of `init(enmap)`: store the container, open (or reuse) the client, select
`db(dbName).collection(name)`, create the TTL index when `documentTTL`,
hydrate via `fetchEverything` when `fetchAll`, and open the change stream
when `monitorChanges === true`.  `rows` stands for the contents the full
scan would return; it is only consulted on the `fetchAll` path.  The second
component lists the store operations issued. -/
def init (st : ProviderState) (enmap : Container) (rows : List StoredRow) :
    ProviderState × List StoreOp :=
  let st1 := { st with enmap := enmap,
                       client := some (match st.sc with
                         | some c => ClientHandle.supplied c
                         | none => ClientHandle.connected st.url),
                       db := some (st.dbName, st.name) }
  let indexOps := if st1.documentTTL then [StoreOp.createIndex "expireAt" 0] else []
  let st2 := if st1.fetchAll then
      { st1 with enmap := fetchEverything rows st1.enmap }
    else st1
  let watchOps := if st1.monitorChanges = true then [StoreOp.watch] else []
  (st2, indexOps ++ watchOps)

/-- Model of `fetch(key)`: `this.db.findOne({_id: key})`. -/
def fetch (st : ProviderState) (key : JSVal) : ProviderState × StoreOp :=
  (st, .findOne key)

/-- Model of `set(key, val, ttl)`: throws unless `key` is truthy and its constructor
name is `String` or `Number`; otherwise issues one upsert replacing the
document with `{_id, value, expireAt: ttl}` when `ttl` is truthy and
`{_id, value}` otherwise.  The operation is returned un-awaited (the JS
call starts it and returns). -/
def set (st : ProviderState) (key val ttl : JSVal) :
    Except String (ProviderState × StoreOp) :=
  if !key.truthy || !(["String", "Number"].contains key.constructorName) then
    .error "Keys should be strings or numbers."
  else if ttl.truthy then
    .ok (st, .update key key val (some ttl) true)
  else
    .ok (st, .update key key val none true)

/-- Model of `delete(key)`: `this.db.remove({_id: key}, {single: true})`.  The body
performs no validation and contains no throw; the `Except` error channel
(shared with `set`) is kept so that absence of a thrown error is part of the
statement. -/
def delete (st : ProviderState) (key : JSVal) :
    Except String (ProviderState × StoreOp) :=
  .ok (st, .remove key true)

/-- Model of `hasAsync(key)`: `this.db.find({_id: key}).limit(1)`, modelled as the
point query it issues. -/
def hasAsync (st : ProviderState) (key : JSVal) : ProviderState × StoreOp :=
  (st, .findOne key)

/-- Model of `bulkDelete()`: `this.db.drop()`. -/
def bulkDelete (st : ProviderState) : ProviderState × StoreOp :=
  (st, .drop)

/-- Model of `close()`: `this.client.close()`. -/
def close (st : ProviderState) : ProviderState × StoreOp :=
  (st, .closeClient)

end EnmapProvider

/-- The character class `[a-z0-9_]` of the sanitized-name alphabet. -/
def allowedChar (c : Char) : Bool :=
  ('a' ≤ c && c ≤ 'z') || ('0' ≤ c && c ≤ '9') || c == '_'

/-- Equality of the nine configuration fields fixed at construction
(everything except `fetchAll`, `enmap`, `client`, `db`). -/
def configEq (a b : ProviderState) : Prop :=
  a.name = b.name ∧ a.auth = b.auth ∧ a.dbName = b.dbName ∧ a.port = b.port ∧
  a.host = b.host ∧ a.url = b.url ∧ a.documentTTL = b.documentTTL ∧
  a.monitorChanges = b.monitorChanges ∧ a.sc = b.sc

/-- A concrete provider state, as produced by a minimal construction. -/
def exState : ProviderState :=
  { name := "test", auth := "", dbName := "enmap", port := 27017,
    host := "localhost", sc := none, documentTTL := false,
    monitorChanges := false, url := "mongodb://localhost:27017/enmap",
    fetchAll := false, enmap := [], client := none, db := none }

/-- State `exState` with the external `fetchAll` flag switched on. -/
def exStateFetchAll : ProviderState :=
  { exState with fetchAll := true }

/-- A namespace holding the two records `a → 1`, `b → 2`. -/
def exRows : List StoredRow :=
  [{ _id := JSVal.str "a", value := JSVal.num 1 },
   { _id := JSVal.str "b", value := JSVal.num 2 }]

/-- An external `insert` event with id `x` and value `y`. -/
def exInsertEvent : ChangeEvent :=
  { operationType := "insert",
    fullDocument := { _id := JSVal.str "x", value := JSVal.str "y" },
    documentKeyId := JSVal.str "x" }

/-- An external `replace` event with id `x` and value `y`. -/
def exReplaceEvent : ChangeEvent :=
  { operationType := "replace",
    fullDocument := { _id := JSVal.str "x", value := JSVal.str "y" },
    documentKeyId := JSVal.str "x" }

/-- An external `update` event against id `k` whose field-level diff changes
the top-level field `a` to `9`; the post-image document is
`{a: 9, b: 2}`. -/
def exUpdateEvent : ChangeEvent :=
  { operationType := "update",
    fullDocument := { _id := JSVal.str "k",
                      value := JSVal.obj [("a", JSAtom.num 9), ("b", JSAtom.num 2)] },
    documentKeyId := JSVal.str "k",
    updatedFields := [("a", JSAtom.num 9)] }

/-- A container holding the object `{a: 1, b: 2}` under id `k`. -/
def exEnmap : Container :=
  [((JSVal.str "k"), JSVal.obj [("a", JSAtom.num 1), ("b", JSAtom.num 2)])]

/-- Options with the name `My Collection!` and everything else defaulted. -/
def exOptions : Options :=
  { name := some "My Collection!" }

/-- The provider state `construct exOptions` produces. -/
def exProvider : ProviderState :=
  { name := "my_collection_", auth := "", dbName := "enmap", port := 27017,
    host := "localhost", sc := none, documentTTL := false,
    monitorChanges := false, url := "mongodb://localhost:27017/enmap",
    fetchAll := false, enmap := [], client := none, db := none }

/-- Options supplying a user but no password. -/
def exOptionsUserOnly : Options :=
  { name := some "n", user := some "alice" }

/-- The provider state `construct exOptionsUserOnly` produces: the supplied
user is dropped and the URL carries no credentials. -/
def exProviderUserOnly : ProviderState :=
  { name := "n", auth := "", dbName := "enmap", port := 27017,
    host := "localhost", sc := none, documentTTL := false,
    monitorChanges := false, url := "mongodb://localhost:27017/enmap",
    fetchAll := false, enmap := [], client := none, db := none }

/-- Comparing characters compares their code points. -/
theorem char_le_toNat {c d : Char} (h : c ≤ d) : c.toNat ≤ d.toNat := by
  rw [Char.le_def, UInt32.le_def, BitVec.le_def] at h
  exact h

/-- The sanitize-then-lowercase pipeline lands in `[a-z0-9_]`, checked on
the code points an unsanitized character can reach. -/
theorem allowedChar_of_fin : ∀ n : Fin 123,
    allowedChar (Char.toLower (sanitizeChar (Char.ofNat n.val))) = true := by
  decide

/-- Every character of a sanitized, lowercased name is in `[a-z0-9_]`. -/
theorem allowedChar_sanitize_toLower (c : Char) :
    allowedChar (Char.toLower (sanitizeChar c)) = true := by
  by_cases h : ('a' ≤ c ∧ c ≤ 'z') ∨ ('A' ≤ c ∧ c ≤ 'Z') ∨ ('0' ≤ c ∧ c ≤ '9')
  · have hlt : c.toNat < 123 := by
      rcases h with ⟨_, h2⟩ | ⟨_, h2⟩ | ⟨_, h2⟩
      · have h3 := char_le_toNat h2
        have h4 : Char.toNat 'z' = 122 := rfl
        omega
      · have h3 := char_le_toNat h2
        have h4 : Char.toNat 'Z' = 90 := rfl
        omega
      · have h3 := char_le_toNat h2
        have h4 : Char.toNat '9' = 57 := rfl
        omega
    have hc : c = Char.ofNat c.toNat := (Char.ofNat_toNat c).symm
    rw [hc]
    exact allowedChar_of_fin ⟨c.toNat, hlt⟩
  · simp only [sanitizeChar, if_neg h]
    decide

/-- Sanitizing a nonempty name yields a nonempty name. -/
theorem validateName_ne_empty {s : String} (h : s ≠ "") : validateName s ≠ "" := by
  intro hcon
  apply h
  have hdata : (validateName s).data = [] := by rw [hcon]
  simp only [validateName, List.map_eq_nil_iff] at hdata
  apply String.ext
  simp [hdata]

/-- Every character of a sanitized name is in `[a-z0-9_]`. -/
theorem validateName_allowed (s : String) (c : Char) (hc : c ∈ (validateName s).data) :
    allowedChar c = true := by
  simp only [validateName, List.mem_map] at hc
  obtain ⟨c1, ⟨c0, _, rfl⟩, rfl⟩ := hc
  exact allowedChar_sanitize_toLower c0

/-- The provider state the constructor produces once the name check has
passed (the constructor's `let` chain, written out). -/
def constructResult (o : Options) : ProviderState :=
  { name := validateName (o.name.getD ""),
    auth := if optStrTruthy o.user && optStrTruthy o.password then
        o.user.getD "" ++ ":" ++ o.password.getD "" ++ "@"
      else "",
    dbName := jsOrStr o.dbName "enmap",
    port := jsOrInt o.port 27017,
    host := jsOrStr o.host "localhost",
    sc := o.sc,
    documentTTL := o.documentTTL,
    monitorChanges := o.monitorChanges,
    url := jsOrStr o.url
      ("mongodb://" ++
        (if optStrTruthy o.user && optStrTruthy o.password then
          o.user.getD "" ++ ":" ++ o.password.getD "" ++ "@"
        else "") ++
        jsOrStr o.host "localhost" ++ ":" ++
        toString (jsOrInt o.port 27017) ++ "/" ++ jsOrStr o.dbName "enmap"),
    fetchAll := false, enmap := [], client := none, db := none }

/-- With a truthy name, construction succeeds and produces
`constructResult`. -/
theorem construct_eq_ok {o : Options} (ht : optStrTruthy o.name = true) :
    EnmapProvider.construct o = .ok (constructResult o) := by
  simp [EnmapProvider.construct, constructResult, ht]

/-- Successful construction implies the name option was truthy. -/
theorem construct_name_truthy {o : Options} {p : ProviderState}
    (h : EnmapProvider.construct o = .ok p) : optStrTruthy o.name = true := by
  by_cases ht : optStrTruthy o.name = true
  · exact ht
  · simp [EnmapProvider.construct, ht] at h

/-- A successfully constructed provider state is `constructResult`. -/
theorem construct_result {o : Options} {p : ProviderState}
    (h : EnmapProvider.construct o = .ok p) : p = constructResult o := by
  have ht := construct_name_truthy h
  rw [construct_eq_ok ht] at h
  exact (Except.ok.inj h).symm

/-- C6: for every configured name, the sanitized namespace identifier is a
nonempty string over `[a-z0-9_]` (i.e. it matches `^[a-z0-9_]+$`), obtained
by replacing non-matching characters with `_` and folding to lowercase; in
particular `My Collection!` sanitizes to `my_collection_`. -/
theorem sanitized_name_charset (o : Options) (p : ProviderState)
    (h : EnmapProvider.construct o = .ok p) :
    p.name ≠ "" ∧ p.name.data.all allowedChar = true ∧
    validateName "My Collection!" = "my_collection_" := by
  have ht := construct_name_truthy h
  have hp := construct_result h
  subst hp
  refine ⟨?_, ?_, by decide⟩
  · show validateName (o.name.getD "") ≠ ""
    apply validateName_ne_empty
    cases hn : o.name with
    | none => rw [hn] at ht; simp [optStrTruthy] at ht
    | some s =>
      rw [hn] at ht
      simp only [optStrTruthy, ne_eq, decide_eq_true_eq] at ht
      simpa [hn] using ht
  · show (validateName (o.name.getD "")).data.all allowedChar = true
    rw [List.all_eq_true]
    intro c hc
    exact validateName_allowed _ c hc

/-- C6 witness: instantiated at the name `My Collection!`. -/
theorem sanitized_name_charset_witness :
    EnmapProvider.construct exOptions = Except.ok exProvider ∧
    (exProvider.name ≠ "" ∧ exProvider.name.data.all allowedChar = true ∧
     validateName "My Collection!" = "my_collection_") :=
  ⟨rfl, sanitized_name_charset exOptions exProvider rfl⟩

/-- C7 counterexample: the claim says construction only fails when the
config lacks a name, but a config whose name is present yet empty (`""`,
falsy) also fails with the construction error. -/
theorem construct_empty_name_refuted :
    EnmapProvider.construct { name := some "" } = .error "Must provide options.name" :=
  rfl

/-- C7 (amended): construction fails with the missing-name error exactly
when `options.name` is absent or falsy (the empty string); with a truthy
(nonempty) name present, the error is not raised and construction
succeeds. -/
theorem construct_error_iff_name_falsy (o : Options) :
    EnmapProvider.construct o = .error "Must provide options.name" ↔
      optStrTruthy o.name = false := by
  by_cases ht : optStrTruthy o.name = true
  · rw [construct_eq_ok ht]
    simp [ht]
  · have ht' : optStrTruthy o.name = false := by
      simpa using ht
    simp [EnmapProvider.construct, ht']

/-- C10: the derived connection URL carries a `user:password@` credentials
segment iff both `user` and `password` are truthy; when at most one of them
is supplied the auth segment is the empty string, so the URL is built
without credentials. -/
theorem url_credentials_iff (o : Options) (p : ProviderState)
    (h : EnmapProvider.construct o = .ok p) (hurl : o.url = none) :
    p.auth = (if optStrTruthy o.user && optStrTruthy o.password then
        o.user.getD "" ++ ":" ++ o.password.getD "" ++ "@"
      else "") ∧
    (p.auth ≠ "" ↔ (optStrTruthy o.user && optStrTruthy o.password) = true) ∧
    p.url = "mongodb://" ++ p.auth ++ p.host ++ ":" ++ toString p.port ++
      "/" ++ p.dbName := by
  have hp := construct_result h
  subst hp
  refine ⟨rfl, ?_, ?_⟩
  · by_cases hb : (optStrTruthy o.user && optStrTruthy o.password) = true
    · constructor
      · intro _
        exact hb
      · intro _ hcon
        show False
        have hlen := congrArg String.length hcon
        rw [show (constructResult o).auth =
            o.user.getD "" ++ ":" ++ o.password.getD "" ++ "@" by
          simp [constructResult, hb]] at hlen
        simp [String.length_append] at hlen
        exact absurd hlen.1.1.2 (by decide)
    · constructor
      · intro hne
        exact absurd (by simp [constructResult, hb]) hne
      · intro hcon
        exact absurd hcon hb
  · show jsOrStr o.url _ = _
    rw [hurl]
    rfl

/-- C10 witness: a config supplying a user but no password gets no
credentials segment. -/
theorem url_credentials_iff_witness :
    EnmapProvider.construct exOptionsUserOnly = Except.ok exProviderUserOnly ∧
    exOptionsUserOnly.url = none ∧
    (exProviderUserOnly.auth =
      (if optStrTruthy exOptionsUserOnly.user &&
          optStrTruthy exOptionsUserOnly.password then
        exOptionsUserOnly.user.getD "" ++ ":" ++
          exOptionsUserOnly.password.getD "" ++ "@"
      else "") ∧
     (exProviderUserOnly.auth ≠ "" ↔
       (optStrTruthy exOptionsUserOnly.user &&
        optStrTruthy exOptionsUserOnly.password) = true) ∧
     exProviderUserOnly.url = "mongodb://" ++ exProviderUserOnly.auth ++
       exProviderUserOnly.host ++ ":" ++ toString exProviderUserOnly.port ++
       "/" ++ exProviderUserOnly.dbName) :=
  ⟨rfl, rfl, url_credentials_iff exOptionsUserOnly exProviderUserOnly rfl rfl⟩

/-- C2 counterexample: the claim says every numeric key (including `0`)
passes validation, but `set` with the number `0` — a falsy value — throws
the validation error. -/
theorem set_zero_key_refuted :
    EnmapProvider.set exState (JSVal.num 0) (JSVal.str "v") JSVal.undef
      = .error "Keys should be strings or numbers." :=
  rfl

/-- C2 (amended): `set` throws the validation error exactly when the key is
falsy or its runtime type is neither string nor number: the upsert is
issued for every truthy string or number key (nonempty strings, nonzero
numbers), and the call fails synchronously — producing no store operation —
for every other key, including the falsy in-type keys `0` and `""`. -/
theorem set_validation_iff (st : ProviderState) (key val ttl : JSVal) :
    ((∃ r, EnmapProvider.set st key val ttl = .ok r) ↔
      ((∃ s, key = JSVal.str s ∧ s ≠ "") ∨ (∃ n, key = JSVal.num n ∧ n ≠ 0))) ∧
    ((EnmapProvider.set st key val ttl
        = .error "Keys should be strings or numbers.") ↔
      ¬ ((∃ s, key = JSVal.str s ∧ s ≠ "") ∨ (∃ n, key = JSVal.num n ∧ n ≠ 0))) := by
  cases httl : JSVal.truthy ttl <;>
  · cases key with
    | str s =>
      by_cases hs : s = ""
      · subst hs
        simp [EnmapProvider.set, JSVal.truthy, JSVal.constructorName]
      · have hk : (JSVal.str s).truthy = true := by simp [JSVal.truthy, hs]
        simp [EnmapProvider.set, hk, JSVal.constructorName, httl, hs]
    | num n =>
      by_cases hn : n = (0 : Int)
      · subst hn
        simp [EnmapProvider.set, JSVal.truthy, JSVal.constructorName]
      · have hk : (JSVal.num n).truthy = true := by simp [JSVal.truthy, hn]
        simp [EnmapProvider.set, hk, JSVal.constructorName, httl, hn]
    | bool b =>
      cases b <;> simp [EnmapProvider.set, JSVal.truthy, JSVal.constructorName]
    | nullV => simp [EnmapProvider.set, JSVal.truthy, JSVal.constructorName]
    | undef => simp [EnmapProvider.set, JSVal.truthy, JSVal.constructorName]
    | obj fs => simp [EnmapProvider.set, JSVal.truthy, JSVal.constructorName]

/-- C5 counterexample: the claim says a given ttl always lands in the
document as `expireAt: ttl`, but `set` with the explicitly given (falsy)
ttl `0` issues the upsert without any `expireAt` field. -/
theorem set_zero_ttl_refuted :
    EnmapProvider.set exState (JSVal.str "k") (JSVal.str "v") (JSVal.num 0)
      = .ok (exState, StoreOp.update (JSVal.str "k") (JSVal.str "k")
          (JSVal.str "v") none true) ∧
    EnmapProvider.set exState (JSVal.str "k") (JSVal.str "v") (JSVal.num 0)
      ≠ .ok (exState, StoreOp.update (JSVal.str "k") (JSVal.str "k")
          (JSVal.str "v") (some (JSVal.num 0)) true) := by
  constructor
  · rfl
  · intro hcon
    have := Except.ok.inj hcon
    simp at this

/-- C5 (amended): for every valid key, `set` issues exactly one upsert
keyed by id that replaces the full stored document: `{id, value,
expireAt: ttl}` when the given ttl is truthy and `{id, value}` otherwise
(in particular when no ttl, or a falsy ttl such as `0`, is given); the
asynchronous store write is started and returned without being awaited. -/
theorem set_upsert_shape (st : ProviderState) (key val ttl : JSVal)
    (hk : key.truthy = true)
    (hc : key.constructorName = "String" ∨ key.constructorName = "Number") :
    EnmapProvider.set st key val ttl =
      .ok (st, StoreOp.update key key val
        (if ttl.truthy then some ttl else none) true) := by
  have hcb : (["String", "Number"].contains key.constructorName) = true := by
    rcases hc with hc | hc <;> simp [hc]
  cases httl : JSVal.truthy ttl <;> simp [EnmapProvider.set, hk, hcb, httl] <;>
    tauto

/-- C5 witness: a truthy numeric key with no ttl given. -/
theorem set_upsert_shape_witness :
    (JSVal.num 5).truthy = true ∧
    ((JSVal.num 5).constructorName = "String" ∨
      (JSVal.num 5).constructorName = "Number") ∧
    EnmapProvider.set exState (JSVal.num 5) (JSVal.num 7) JSVal.undef =
      .ok (exState, StoreOp.update (JSVal.num 5) (JSVal.num 5) (JSVal.num 7)
        (if JSVal.undef.truthy then some JSVal.undef else none) true) :=
  ⟨by decide, by decide,
    set_upsert_shape exState (JSVal.num 5) (JSVal.num 7) JSVal.undef
      (by decide) (by decide)⟩

/-- C9: `delete` performs no key-type validation: for a key of any runtime
type it issues the single-document remove without throwing, while `set`
with any key that fails its validation (falsy, or neither string nor
number) throws the validation error. -/
theorem delete_no_validation (st : ProviderState) (key key2 val ttl : JSVal)
    (hk2 : key2.truthy = false ∨
      (key2.constructorName ≠ "String" ∧ key2.constructorName ≠ "Number")) :
    EnmapProvider.delete st key = .ok (st, StoreOp.remove key true) ∧
    EnmapProvider.delete st key2 = .ok (st, StoreOp.remove key2 true) ∧
    EnmapProvider.set st key2 val ttl
      = .error "Keys should be strings or numbers." := by
  refine ⟨rfl, rfl, ?_⟩
  have hguard : (!key2.truthy ||
      !(["String", "Number"].contains key2.constructorName)) = true := by
    rcases hk2 with hk2 | ⟨h1, h2⟩
    · simp [hk2]
    · simp [h1, h2]
  simp only [EnmapProvider.set, hguard]
  rfl

/-- C9 witness: an object key (truthy, but neither string nor number). -/
theorem delete_no_validation_witness :
    ((JSVal.obj []).truthy = false ∨
      ((JSVal.obj []).constructorName ≠ "String" ∧
       (JSVal.obj []).constructorName ≠ "Number")) ∧
    (EnmapProvider.delete exState JSVal.nullV
        = .ok (exState, StoreOp.remove JSVal.nullV true) ∧
     EnmapProvider.delete exState (JSVal.obj [])
        = .ok (exState, StoreOp.remove (JSVal.obj []) true) ∧
     EnmapProvider.set exState (JSVal.obj []) (JSVal.num 1) JSVal.undef
        = .error "Keys should be strings or numbers.") :=
  ⟨by decide,
    delete_no_validation exState JSVal.nullV (JSVal.obj []) (JSVal.num 1)
      JSVal.undef (by decide)⟩

/-- Raw `Map.set` with a fresh key appends the pair. -/
theorem mapSet_append {m : Container} {k : JSVal} (v : JSVal)
    (h : ∀ p ∈ m, p.1 ≠ k) : mapSet m k v = m ++ [(k, v)] := by
  have hany : m.any (fun p => p.1 == k) = false := by
    rw [List.any_eq_false]
    intro p hp
    simp [h p hp]
  simp [mapSet, hany]

/-- Hydrating rows with fresh, pairwise-distinct ids appends exactly their
`(id, value)` pairs, in order. -/
theorem fetchEverything_append (rows : List StoredRow) :
    ∀ m : Container, (∀ r ∈ rows, ∀ p ∈ m, p.1 ≠ r._id) →
    (rows.map StoredRow._id).Nodup →
    EnmapProvider.fetchEverything rows m
      = m ++ rows.map (fun r => (r._id, r.value)) := by
  induction rows with
  | nil =>
    intro m _ _
    simp [EnmapProvider.fetchEverything]
  | cons r rs ih =>
    intro m hdisj hnodup
    rw [List.map_cons, List.nodup_cons] at hnodup
    have h1 : ∀ p ∈ m, p.1 ≠ r._id := fun p hp => hdisj r (by simp) p hp
    have hdisj2 : ∀ s ∈ rs, ∀ p ∈ m ++ [(r._id, r.value)], p.1 ≠ s._id := by
      intro s hs p hp
      rcases List.mem_append.mp hp with hp | hp
      · exact hdisj s (by simp [hs]) p hp
      · simp only [List.mem_singleton] at hp
        subst hp
        intro hcon
        have hcon2 : r._id = s._id := hcon
        apply hnodup.1
        rw [hcon2]
        exact List.mem_map_of_mem _ hs
    have hstep : EnmapProvider.fetchEverything (r :: rs) m
        = EnmapProvider.fetchEverything rs (mapSet m r._id r.value) := rfl
    rw [hstep, mapSet_append r.value h1, ih _ hdisj2 hnodup.2]
    simp

/-- C4: with the external `fetchAll` flag enabled, `init` hydrates the
supplied (empty) container with exactly the stored keys and their stored
values, via the raw `Map.prototype.set` path; the store operations issued
during `init` are only the TTL index creation and the change-stream
subscription — no `set`-style upsert is ever written back. -/
theorem init_fetchAll_hydrates (st : ProviderState) (rows : List StoredRow)
    (hfa : st.fetchAll = true)
    (hnodup : (rows.map StoredRow._id).Nodup) :
    (EnmapProvider.init st [] rows).1.enmap
        = rows.map (fun r => (r._id, r.value)) ∧
    (EnmapProvider.init st [] rows).2.all
        (fun op => op == StoreOp.createIndex "expireAt" 0
          || op == StoreOp.watch) = true := by
  constructor
  · have hfe := fetchEverything_append rows [] (by intro r _ p hp; cases hp) hnodup
    simp [EnmapProvider.init, hfa, hfe]
  · cases hd : st.documentTTL <;> cases hm : st.monitorChanges <;>
      simp [EnmapProvider.init, hd, hm]

/-- C4 witness: hydrating a namespace holding `{a: 1, b: 2}`. -/
theorem init_fetchAll_hydrates_witness :
    exStateFetchAll.fetchAll = true ∧
    (exRows.map StoredRow._id).Nodup ∧
    ((EnmapProvider.init exStateFetchAll [] exRows).1.enmap
        = exRows.map (fun r => (r._id, r.value)) ∧
     (EnmapProvider.init exStateFetchAll [] exRows).2.all
        (fun op => op == StoreOp.createIndex "expireAt" 0
          || op == StoreOp.watch) = true) :=
  ⟨rfl, by decide, init_fetchAll_hydrates exStateFetchAll exRows rfl (by decide)⟩

/-- C1 counterexample: an external `update` event whose field-level diff
changes the top-level field `a` of the existing object `{a: 1, b: 2}`
leaves the container completely unchanged — the handler does not fetch,
merge or store anything, so the merged object `{a: 9, b: 2}` the claim
promises never appears under the id. -/
theorem update_event_merge_refuted :
    (EnmapProvider.handleChange exEnmap exUpdateEvent).1 = exEnmap ∧
    mapGet (EnmapProvider.handleChange exEnmap exUpdateEvent).1 (JSVal.str "k")
      ≠ some (JSVal.obj [("a", JSAtom.num 9), ("b", JSAtom.num 2)]) := by
  decide

/-- C1 (amended): with `monitorChanges` enabled, the change handler ignores
`update` events entirely — it has branches only for `insert` and `delete`,
so on an `update` event the container is left unchanged, no merge of the
changed fields happens at any nesting depth, and no store operation is
issued. -/
theorem update_event_ignored (enmap : Container) (change : ChangeEvent)
    (h : change.operationType = "update") :
    EnmapProvider.handleChange enmap change = (enmap, []) := by
  simp [EnmapProvider.handleChange, h]

/-- C1 witness: the `update` event with diff `{a: 9}` on container
`k → {a: 1, b: 2}`. -/
theorem update_event_ignored_witness :
    exUpdateEvent.operationType = "update" ∧
    EnmapProvider.handleChange exEnmap exUpdateEvent = (exEnmap, []) :=
  ⟨rfl, update_event_ignored exEnmap exUpdateEvent rfl⟩

/-- C3 counterexample: the claim says a `replace` event upserts the full
document's value under its id, but the handler has no `replace` branch: on
a `replace` event with id `x`, value `y` the container stays empty and
`x → y` never appears. -/
theorem replace_event_refuted :
    (EnmapProvider.handleChange [] exReplaceEvent).1 = [] ∧
    mapGet (EnmapProvider.handleChange [] exReplaceEvent).1 (JSVal.str "x")
      ≠ some (JSVal.str "y") := by
  decide

/-- C3 (amended): for every incoming change-feed event, an `insert` event
upserts the full document's value under its id into the container via the
raw `Map.prototype.set` path and a `delete` event removes the id via the
raw `Map.prototype.delete` path, in both cases issuing no outbound store
operation; `replace` events are not handled and leave the container
untouched. -/
theorem change_event_dispatch (enmap : Container) (change : ChangeEvent) :
    (change.operationType = "insert" →
      EnmapProvider.handleChange enmap change
        = (mapSet enmap change.fullDocument._id change.fullDocument.value, [])) ∧
    (change.operationType = "delete" →
      EnmapProvider.handleChange enmap change
        = (mapDelete enmap change.documentKeyId, [])) ∧
    (change.operationType = "replace" →
      EnmapProvider.handleChange enmap change = (enmap, [])) := by
  refine ⟨?_, ?_, ?_⟩ <;> intro h <;> simp [EnmapProvider.handleChange, h]

/-- C3 witness: an `insert` event with id `x`, value `y` on the empty
container. -/
theorem change_event_dispatch_witness :
    exInsertEvent.operationType = "insert" ∧
    EnmapProvider.handleChange [] exInsertEvent
      = (mapSet [] (JSVal.str "x") (JSVal.str "y"), []) :=
  ⟨rfl, (change_event_dispatch [] exInsertEvent).1 rfl⟩

/-- C8: every configuration field fixed at construction (sanitized name,
auth, dbName, port, host, url, documentTTL, monitorChanges, sc) is left
unchanged by every subsequent operation: `init`, `fetch`, `set`, `delete`,
`bulkDelete` and `close` never mutate any of them. -/
theorem config_immutable (st : ProviderState) (enmap : Container)
    (rows : List StoredRow) (key val ttl k2 k3 : JSVal)
    (r s : ProviderState × StoreOp)
    (hset : EnmapProvider.set st key val ttl = .ok r)
    (hdel : EnmapProvider.delete st k2 = .ok s) :
    configEq st (EnmapProvider.init st enmap rows).1 ∧
    configEq st (EnmapProvider.fetch st k3).1 ∧
    configEq st r.1 ∧
    configEq st s.1 ∧
    configEq st (EnmapProvider.bulkDelete st).1 ∧
    configEq st (EnmapProvider.close st).1 := by
  have hr : r.1 = st := by
    simp only [EnmapProvider.set] at hset
    split at hset
    · exact absurd hset (by simp)
    · split at hset <;> · rw [(Except.ok.inj hset).symm]
  have hs : s.1 = st := by
    rw [(Except.ok.inj hdel).symm]
  refine ⟨?_, ?_, ?_, ?_, ?_, ?_⟩
  · simp only [EnmapProvider.init]
    split <;> simp [configEq]
  · simp [EnmapProvider.fetch, configEq]
  · rw [hr]
    simp [configEq]
  · rw [hs]
    simp [configEq]
  · simp [EnmapProvider.bulkDelete, configEq]
  · simp [EnmapProvider.close, configEq]

/-- C8 witness: instantiated at a concrete state, with concrete `set` and
`delete` results. -/
theorem config_immutable_witness :
    EnmapProvider.set exState (JSVal.str "k") (JSVal.num 1) JSVal.undef
      = .ok (exState, StoreOp.update (JSVal.str "k") (JSVal.str "k")
          (JSVal.num 1) none true) ∧
    EnmapProvider.delete exState (JSVal.str "j")
      = .ok (exState, StoreOp.remove (JSVal.str "j") true) ∧
    (configEq exState (EnmapProvider.init exState [] []).1 ∧
     configEq exState (EnmapProvider.fetch exState (JSVal.str "m")).1 ∧
     configEq exState (exState, StoreOp.update (JSVal.str "k") (JSVal.str "k")
          (JSVal.num 1) none true).1 ∧
     configEq exState (exState, StoreOp.remove (JSVal.str "j") true).1 ∧
     configEq exState (EnmapProvider.bulkDelete exState).1 ∧
     configEq exState (EnmapProvider.close exState).1) :=
  ⟨rfl, rfl,
    config_immutable exState [] [] (JSVal.str "k") (JSVal.num 1) JSVal.undef
      (JSVal.str "j") (JSVal.str "m")
      (exState, StoreOp.update (JSVal.str "k") (JSVal.str "k") (JSVal.num 1)
        none true)
      (exState, StoreOp.remove (JSVal.str "j") true) rfl rfl⟩
